import Mathlib

/-!
Verification of the `cfn-transform` library (`cfn_transform.py`): a shallow
embedding of the CloudFormation template transform pipeline
(`CloudFormationTemplateTransform.apply` / `_apply` / `map` /
`resource_type_matches`) and of the deep-merge engine (`_merge_dicts`),
with theorems checking the specification's claims against the code.

Python values appearing in templates are modelled by the inductive `Value`;
Python `dict`s are modelled as insertion-ordered association lists
(`List (String × Value)`), matching CPython's insertion-ordered dicts (keys
are unique in a real dict).  Python `==` is modelled as structural equality
of `Value`; fallible code returns an `Option String` error component, with
the in-place partially-mutated data returned alongside it.
-/

namespace CfnTransform

/-- Model of a Python value stored in a template: None, bool, int, str,
list, set/frozenset, or dict (insertion-ordered association list). -/
inductive Value where
  | vNull : Value
  | vBool : Bool → Value
  | vInt : Int → Value
  | vStr : String → Value
  | vList : List Value → Value
  | vSet : List Value → Value
  | vDict : List (String × Value) → Value

/-- A Python dict with string keys, as an insertion-ordered association list. -/
abbrev Dict := List (String × Value)

mutual

/-- Structural equality of values (model of Python `==` on template data). -/
def beqV : Value → Value → Bool
  | .vNull, .vNull => true
  | .vBool a, .vBool b => a == b
  | .vInt a, .vInt b => a == b
  | .vStr a, .vStr b => a == b
  | .vList a, .vList b => beqL a b
  | .vSet a, .vSet b => beqL a b
  | .vDict a, .vDict b => beqD a b
  | _, _ => false

/-- Elementwise equality of value lists. -/
def beqL : List Value → List Value → Bool
  | [], [] => true
  | a :: as, b :: bs => beqV a b && beqL as bs
  | _, _ => false

/-- Entrywise equality of association lists. -/
def beqD : List (String × Value) → List (String × Value) → Bool
  | [], [] => true
  | (k1, v1) :: as, (k2, v2) :: bs => k1 == k2 && beqV v1 v2 && beqD as bs
  | _, _ => false

end

mutual

theorem beqV_iff : ∀ (a b : Value), beqV a b = true ↔ a = b
  | .vNull, .vNull => by simp [beqV]
  | .vNull, .vBool _ => by simp [beqV]
  | .vNull, .vInt _ => by simp [beqV]
  | .vNull, .vStr _ => by simp [beqV]
  | .vNull, .vList _ => by simp [beqV]
  | .vNull, .vSet _ => by simp [beqV]
  | .vNull, .vDict _ => by simp [beqV]
  | .vBool _, .vNull => by simp [beqV]
  | .vBool a, .vBool b => by simp [beqV]
  | .vBool _, .vInt _ => by simp [beqV]
  | .vBool _, .vStr _ => by simp [beqV]
  | .vBool _, .vList _ => by simp [beqV]
  | .vBool _, .vSet _ => by simp [beqV]
  | .vBool _, .vDict _ => by simp [beqV]
  | .vInt _, .vNull => by simp [beqV]
  | .vInt _, .vBool _ => by simp [beqV]
  | .vInt a, .vInt b => by simp [beqV]
  | .vInt _, .vStr _ => by simp [beqV]
  | .vInt _, .vList _ => by simp [beqV]
  | .vInt _, .vSet _ => by simp [beqV]
  | .vInt _, .vDict _ => by simp [beqV]
  | .vStr _, .vNull => by simp [beqV]
  | .vStr _, .vBool _ => by simp [beqV]
  | .vStr _, .vInt _ => by simp [beqV]
  | .vStr a, .vStr b => by simp [beqV]
  | .vStr _, .vList _ => by simp [beqV]
  | .vStr _, .vSet _ => by simp [beqV]
  | .vStr _, .vDict _ => by simp [beqV]
  | .vList _, .vNull => by simp [beqV]
  | .vList _, .vBool _ => by simp [beqV]
  | .vList _, .vInt _ => by simp [beqV]
  | .vList _, .vStr _ => by simp [beqV]
  | .vList a, .vList b => by simp [beqV, beqL_iff a b]
  | .vList _, .vSet _ => by simp [beqV]
  | .vList _, .vDict _ => by simp [beqV]
  | .vSet _, .vNull => by simp [beqV]
  | .vSet _, .vBool _ => by simp [beqV]
  | .vSet _, .vInt _ => by simp [beqV]
  | .vSet _, .vStr _ => by simp [beqV]
  | .vSet _, .vList _ => by simp [beqV]
  | .vSet a, .vSet b => by simp [beqV, beqL_iff a b]
  | .vSet _, .vDict _ => by simp [beqV]
  | .vDict _, .vNull => by simp [beqV]
  | .vDict _, .vBool _ => by simp [beqV]
  | .vDict _, .vInt _ => by simp [beqV]
  | .vDict _, .vStr _ => by simp [beqV]
  | .vDict _, .vList _ => by simp [beqV]
  | .vDict _, .vSet _ => by simp [beqV]
  | .vDict a, .vDict b => by simp [beqV, beqD_iff a b]

theorem beqL_iff : ∀ (a b : List Value), beqL a b = true ↔ a = b
  | [], [] => by simp [beqL]
  | [], _ :: _ => by simp [beqL]
  | _ :: _, [] => by simp [beqL]
  | a :: as, b :: bs => by simp [beqL, beqV_iff a b, beqL_iff as bs]

theorem beqD_iff : ∀ (a b : List (String × Value)), beqD a b = true ↔ a = b
  | [], [] => by simp [beqD]
  | [], _ :: _ => by simp [beqD]
  | _ :: _, [] => by simp [beqD]
  | (k1, v1) :: as, (k2, v2) :: bs => by
      simp [beqD, beqV_iff v1 v2, beqD_iff as bs, and_assoc, Prod.ext_iff]

end

instance instDecEqValue : DecidableEq Value :=
  fun a b => decidable_of_iff _ (beqV_iff a b)

/-- `dict[key]` lookup (first matching key; keys are unique in real dicts). -/
def dget : Dict → String → Option Value
  | [], _ => none
  | (k1, v1) :: rest, k => if k1 = k then some v1 else dget rest k

/-- `key in dict` membership test. -/
def dmem (d : Dict) (k : String) : Bool :=
  (dget d k).isSome

/-- `dict[key] = value`: replace in place if the key exists (keeping its
position, as CPython does), else append at the end. -/
def dset : Dict → String → Value → Dict
  | [], k, v => [(k, v)]
  | (k1, v1) :: rest, k, v =>
    if k1 = k then (k, v) :: rest else (k1, v1) :: dset rest k v

/-- `del dict[key]`: remove the entry (all occurrences; real dicts have
unique keys, so this coincides with removing the single entry). -/
def ddel : Dict → String → Dict
  | [], _ => []
  | (k1, v1) :: rest, k =>
    if k1 = k then ddel rest k else (k1, v1) :: ddel rest k

/-- `dict1.update(dict2)`: set every entry of `dict2` in `dict1`, in order
(last write wins on key collisions). -/
def dupdate (d1 d2 : Dict) : Dict :=
  d2.foldl (fun d p => dset d p.1 p.2) d1

/-- Python truthiness, negated: `falsy v = true` iff `not v` holds in Python
(`None`, `False`, `0`, and empty str/list/set/dict are falsy). -/
def falsy : Value → Bool
  | .vNull => true
  | .vBool b => !b
  | .vInt n => n = 0
  | .vStr s => s = ""
  | .vList l => l.isEmpty
  | .vSet l => l.isEmpty
  | .vDict d => d.isEmpty

/-- Rendering of `type(v)` used in the merge-conflict message.  (Python
renders a type object with extra decoration, e.g. `<class ...>`; only the
bare kind name is modelled.) -/
def typeName : Value → String
  | .vNull => "NoneType"
  | .vBool _ => "bool"
  | .vInt _ => "int"
  | .vStr _ => "str"
  | .vList _ => "list"
  | .vSet _ => "set"
  | .vDict _ => "dict"

/-- The message of the `TypeError` raised by `_merge_dicts` on a conflict:
`"Cannot merge {type(value1)} with {type(value2)} at {'/'.join(path)}"`
(line 320).  Note the joined path is the `path` argument of the *current*
call — not `path + [key]` — so the conflicting key itself never appears. -/
def mergeErrMsg (v1 v2 : Value) (path : List String) : String :=
  "Cannot merge " ++ typeName v1 ++ " with " ++ typeName v2 ++ " at " ++
    String.intercalate "/" path

/-- `value1 | frozenset(value2)` (line 318): set union keeping `s1`'s
elements, then the elements of `s2` not already present, deduplicated. -/
def setUnion (s1 s2 : List Value) : List Value :=
  s1 ++ (s2.filter (fun x => decide (x ∉ s1))).dedup

mutual

/-- Shallow embedding of `_merge_dicts(dict1, dict2, path)` (lines 304-321):
recursively merge `dict2` into `dict1`, key by key via `mergeOne`.  The
Python function mutates `dict1` in place and raises on conflict; here the
result is `(error?, dict1')` where `dict1'` is `dict1` as mutated up to the
point of the error (the whole merged result when `error? = none`). -/
def mergeDicts (d1 : Dict) : Dict → List String → Option String × Dict
  | [], _ => (none, d1)
  | (k, v2) :: rest, path =>
    match mergeOne d1 k v2 path with
    | (none, d1x) => mergeDicts d1x rest path
    | (some e, d1x) => (some e, d1x)

/-- The body of the `_merge_dicts` loop for one `(key, value2)` pair of
`dict2` (lines 309-320): insert if the key is absent, skip if the values are
equal, recurse if both are dicts, take the set union if the target is a
set and the source a set or list, and fail otherwise. -/
def mergeOne (d1 : Dict) (k : String) (v2 : Value) (path : List String) :
    Option String × Dict :=
  match dget d1 k with
  | none => (none, dset d1 k v2)
  | some v1 =>
    if v1 = v2 then (none, d1)
    else
      match v2 with
      | .vDict b =>
        match v1 with
        | .vDict a =>
          match mergeDicts a b (path ++ [k]) with
          | (none, m) => (none, dset d1 k (.vDict m))
          | (some e, m) => (some e, dset d1 k (.vDict m))
        | _ => (some (mergeErrMsg v1 v2 path), d1)
      | .vSet s2 =>
        match v1 with
        | .vSet s1 => (none, dset d1 k (.vSet (setUnion s1 s2)))
        | _ => (some (mergeErrMsg v1 v2 path), d1)
      | .vList s2 =>
        match v1 with
        | .vSet s1 => (none, dset d1 k (.vSet (setUnion s1 s2)))
        | _ => (some (mergeErrMsg v1 v2 path), d1)
      | _ => (some (mergeErrMsg v1 v2 path), d1)

end

/-- Model of a resource type spec (`PROCESS_RESOURCE_TYPE_SPEC`): `None`; an
exact string; a regex-like object with a `search` method (modelled as a
literal pattern matched by substring search); a callable predicate; an
iterable of specs; or a value of any other, unrecognized type (`other`). -/
inductive RTypeSpec where
  | noSpec : RTypeSpec
  | strSpec : String → RTypeSpec
  | patternSpec : String → RTypeSpec
  | predSpec : (Value → Bool) → RTypeSpec
  | anyOf : List RTypeSpec → RTypeSpec
  | other : RTypeSpec

mutual

/-- Shallow embedding of
`resource_type_matches(resource_type, resource_type_spec)` (lines 45-64):
`None` matches everything; a string matches by equality; a pattern by
(substring) search, raising if the subject is not a string; a callable by
its result; an iterable if any of its members matches; anything else raises
`TypeError("Unknown resource_type_spec ...")`. -/
def rtMatches (ty : Value) : RTypeSpec → Except String Bool
  | .noSpec => .ok true
  | .strSpec s => .ok (decide (ty = .vStr s))
  | .patternSpec p =>
    match ty with
    | .vStr s => .ok (decide (p.toList <:+: s.toList))
    | _ => .error "TypeError: expected string or bytes-like object"
  | .predSpec f => .ok (f ty)
  | .anyOf l => rtAny ty l
  | .other => .error "Unknown resource_type_spec"

/-- `any(cls.resource_type_matches(resource_type, spec) for spec in specs)`
(line 62): left to right, short-circuiting on the first match, propagating
the first exception reached. -/
def rtAny (ty : Value) : List RTypeSpec → Except String Bool
  | [] => .ok false
  | s :: rest =>
    match rtMatches ty s with
    | .error e => .error e
    | .ok true => .ok true
    | .ok false => rtAny ty rest

end

/-- One resource-processing operation (`process_resource(logical_id,
resource)`): the Python method may mutate `resource` in place and may return
a dict of new resources (or `None`); modelled as returning the mutated
resource together with the optional additions. -/
abbrev ProcessFn := String → Dict → Dict × Option Dict

/-- The first loop of classmethod `map` (lines 68-75), iterating a snapshot
of the resources: for each resource whose `Type` matches the spec, run
`func`, accumulate its returned additions with `dict.update` semantics
(last write wins), and mark the resource for removal if `func` left it
empty.  Returns `(error?, resources, additions, remove)`; the returned
resources carry the in-place mutations `func` made to matched resources
(the shared dict objects). -/
def mapLoop (f : ProcessFn) (spec : RTypeSpec) :
    List (String × Value) → Dict → Dict → List String →
    Option String × Dict × Dict × List String
  | [], res, add, rem => (none, res, add, rem)
  | (lid, r) :: rest, res, add, rem =>
    match r with
    | .vDict rd =>
      match dget rd "Type" with
      | none => (some "KeyError: Type", res, add, rem)
      | some ty =>
        match rtMatches ty spec with
        | .error e => (some e, res, add, rem)
        | .ok false => mapLoop f spec rest res add rem
        | .ok true =>
          let (r2, newRes) := f lid rd
          let res2 := dset res lid (.vDict r2)
          let add2 := dupdate add (newRes.getD [])
          let rem2 := if r2.isEmpty then rem ++ [lid] else rem
          mapLoop f spec rest res2 add2 rem2
    | _ => (some "TypeError: resource is not a dict", res, add, rem)

/-- Shallow embedding of classmethod `map(resources, func,
resource_type_spec)` (lines 66-79): run the loop over every (logical id,
resource) pair, then delete every marked logical id, then `_merge_dicts` the
accumulated additions into the resources mapping. -/
def mapResources (resources : Dict) (f : ProcessFn) (spec : RTypeSpec) :
    Option String × Dict :=
  match mapLoop f spec resources resources [] [] with
  | (some e, res, _, _) => (some e, res)
  | (none, res, add, rem) =>
    let res2 := rem.foldl ddel res
    mergeDicts res2 add []

/-- Pipeline trace events: an invoked hook, or the `self.applied = True`
assignment of `apply` (line 140). -/
inductive Event where
  | hook : String → Event
  | setApplied : Event
deriving DecidableEq

/-- The mutable state of a transform instance: `self.template` and
`self.applied`. -/
structure TState where
  template : Dict
  applied : Bool
deriving DecidableEq

/-- A transform instance's overridable behavior: the sub-transformer list
(each sub-transform as a template-to-template `apply`, sharing the parent's
dict object so an exception leaves its partial mutations behind), the eight
section-providers, the optional `process_resource` with its
`PROCESS_RESOURCE_TYPE_SPEC`, and the optional `update_<name>` hooks (which,
as methods on `self`, can read and write the whole instance state).  Every
default is the base-class default from lines 88-113. -/
structure TransformSpec where
  subs : List (Dict → Option String × Dict) := []
  descriptionS : Option Value := none
  transformS : Value := .vNull
  metadataS : Dict := []
  parametersS : Dict := []
  mappingsS : Dict := []
  conditionsS : Dict := []
  resourcesS : Dict := []
  outputsS : Dict := []
  processResource : Option ProcessFn := none
  typeSpec : RTypeSpec := .noSpec
  hooks : String → Option (TState → TState) := fun _ => none

/-- A transform with every extension point left at its base-class default. -/
def defaultT : TransformSpec := {}

/-- `_run_hook(*names)` (lines 144-148): for each name in order, if the
transform defines `update_<name>`, invoke it on the instance state.  Emits
one trace event per hook actually invoked. -/
def runHook (t : TransformSpec) (st : TState) : List String → TState × List Event
  | [] => (st, [])
  | n :: rest =>
    match t.hooks n with
    | some f =>
      let r := runHook t (f st) rest
      (r.1, .hook n :: r.2)
    | none => runHook t st rest

/-- The sub-transformer loop (lines 155-158): each sub-transform receives
the current template and its `apply` output replaces it; an exception
propagates, with the template as mutated so far. -/
def runSubs : List (Dict → Option String × Dict) → TState → Option String × TState
  | [], st => (none, st)
  | f :: rest, st =>
    match f st.template with
    | (none, tmpl) => runSubs rest { st with template := tmpl }
    | (some e, tmpl) => (some e, { st with template := tmpl })

/-- Lines 162-164: `desc = self.Description()`; if it is not `None`, set it
as the template's `Description` (overwriting any prior value). -/
def descStep (t : TransformSpec) (tmpl : Dict) : Dict :=
  match t.descriptionS with
  | none => tmpl
  | some d => dset tmpl "Description" d

/-- Lines 166-173: `transforms = self.Transform()`; if truthy, initialize
`template['Transform']` to `[]` when absent, then `append` a string or
`extend` by any other (iterable) value.  `append`/`extend` on a non-list
field value, or `extend` of a non-iterable value, raises. -/
def transformStep (t : TransformSpec) (tmpl : Dict) : Option String × Dict :=
  let tv := t.transformS
  if falsy tv then (none, tmpl)
  else
    let tmpl2 := if dmem tmpl "Transform" then tmpl
                 else dset tmpl "Transform" (.vList [])
    match dget tmpl2 "Transform", tv with
    | some (.vList l), .vStr s =>
        (none, dset tmpl2 "Transform" (.vList (l ++ [.vStr s])))
    | some (.vList l), .vList xs =>
        (none, dset tmpl2 "Transform" (.vList (l ++ xs)))
    | some (.vList l), .vSet xs =>
        (none, dset tmpl2 "Transform" (.vList (l ++ xs)))
    | some (.vList l), .vDict d =>
        (none, dset tmpl2 "Transform" (.vList (l ++ d.map (fun p => .vStr p.1))))
    | some (.vList _), _ => (some "TypeError: object is not iterable", tmpl2)
    | some _, _ => (some "AttributeError: no append or extend", tmpl2)
    | none, _ => (none, tmpl2)

/-- `getattr(self, field)()`: the section-provider for one dict-field. -/
def sectionOf (t : TransformSpec) : String → Dict
  | "Metadata" => t.metadataS
  | "Parameters" => t.parametersS
  | "Mappings" => t.mappingsS
  | "Conditions" => t.conditionsS
  | "Resources" => t.resourcesS
  | "Outputs" => t.outputsS
  | _ => []

/-- The fixed dict-field order (line 175). -/
def dictFields : List String :=
  ["Metadata", "Parameters", "Mappings", "Conditions", "Resources", "Outputs"]

/-- The dict-fields plus `Description` and `Transform` (line 183): the
fields subject to the cleanup pass. -/
def allFields : List String := dictFields ++ ["Description", "Transform"]

/-- Lines 177-181 for one field: initialize it to `{}` if absent, then
`_merge_dicts` the section-provider's mapping into it.  A non-dict field
value only raises when the section mapping is non-empty, because the
`_merge_dicts` loop body never runs on an empty source. -/
def mergeField (t : TransformSpec) (f : String) (tmpl : Dict) :
    Option String × Dict :=
  let tmpl2 := if dmem tmpl f then tmpl else dset tmpl f (.vDict [])
  match dget tmpl2 f with
  | some (.vDict d1) =>
    match mergeDicts d1 (sectionOf t f) [] with
    | (none, d2) => (none, dset tmpl2 f (.vDict d2))
    | (some e, d2) => (some e, dset tmpl2 f (.vDict d2))
  | some _ =>
    if (sectionOf t f).isEmpty then (none, tmpl2)
    else (some "TypeError: cannot merge into a non-dict value", tmpl2)
  | none => (none, tmpl2)

/-- The loop of lines 177-181 over the whole dict-field list. -/
def mergeFieldsAll (t : TransformSpec) : List String → Dict → Option String × Dict
  | [], tmpl => (none, tmpl)
  | f :: rest, tmpl =>
    match mergeField t f tmpl with
    | (none, tmpl2) => mergeFieldsAll t rest tmpl2
    | (some e, tmpl2) => (some e, tmpl2)

/-- One step of the cleanup loop (lines 183-185): delete the field if it is
present with a falsy value. -/
def clean1 (tm : Dict) (f : String) : Dict :=
  match dget tm f with
  | some v => if falsy v then ddel tm f else tm
  | none => tm

/-- The cleanup loop (lines 183-185) over the dict-fields plus
`Description` and `Transform`. -/
def cleanupStep (tmpl : Dict) : Dict :=
  allFields.foldl clean1 tmpl

/-- Lines 189-190: if the transform defines `process_resource`, apply `map`
to `self.template['Resources']` (a `KeyError` when cleanup removed it). -/
def processStep (t : TransformSpec) (tmpl : Dict) : Option String × Dict :=
  match t.processResource with
  | none => (none, tmpl)
  | some f =>
    match dget tmpl "Resources" with
    | none => (some "KeyError: Resources", tmpl)
    | some (.vDict rs) =>
      match mapResources rs f t.typeSpec with
      | (none, rs2) => (none, dset tmpl "Resources" (.vDict rs2))
      | (some e, rs2) => (some e, dset tmpl "Resources" (.vDict rs2))
    | some _ => (some "TypeError: resources value is not a dict", tmpl)

/-- Shallow embedding of `_apply` (lines 150-194), threading the instance
state and emitting the trace of hook invocations.  On an exception the
returned state carries the mutations made up to that point. -/
def applyPipeline (t : TransformSpec) (st : TState) :
    Option String × TState × List Event :=
  let r1 := runHook t st ["at_start", "before_subtransformers"]
  match runSubs t.subs r1.1 with
  | (some e, st2) => (some e, st2, r1.2)
  | (none, st2) =>
    let r2 := runHook t st2 ["after_subtransformers", "before_sections"]
    match transformStep t (descStep t r2.1.template) with
    | (some e, tmpl1) => (some e, { r2.1 with template := tmpl1 }, r1.2 ++ r2.2)
    | (none, tmpl1) =>
      match mergeFieldsAll t dictFields tmpl1 with
      | (some e, tmpl2) => (some e, { r2.1 with template := tmpl2 }, r1.2 ++ r2.2)
      | (none, tmpl2) =>
        let r3 := runHook t { r2.1 with template := cleanupStep tmpl2 }
                    ["after_sections", "before_process_resource"]
        match processStep t r3.1.template with
        | (some e, tmpl4) =>
          (some e, { r3.1 with template := tmpl4 }, r1.2 ++ r2.2 ++ r3.2)
        | (none, tmpl4) =>
          let r4 := runHook t { r3.1 with template := tmpl4 } ["after_process_resource"]
          let r5 := runHook t r4.1 ["at_end"]
          (none, r5.1, r1.2 ++ r2.2 ++ r3.2 ++ r4.2 ++ r5.2)

/-- The path `apply` takes on a fresh instance (lines 138-142): run
`_apply`; on success set `self.applied = True` (traced as `setApplied`) and
return the template; on an exception propagate it with the applied flag
untouched. -/
def applyRun (t : TransformSpec) (st : TState) :
    TState × Option String × List Event :=
  match applyPipeline t st with
  | (none, st2, ev) => ({ st2 with applied := true }, none, ev ++ [.setApplied])
  | (some e, st2, ev) => (st2, some e, ev)

/-- The message of the `RuntimeError` raised on a second `apply()`
(line 136). -/
def doubleApplyMsg : String := "Transform applied more than once"

/-- Shallow embedding of `apply` (lines 115-142): raise if the instance was
already applied, otherwise run `_apply`, mark applied, and return the
template (the `template` component of the returned state). -/
def applyT (t : TransformSpec) (st : TState) :
    TState × Option String × List Event :=
  if st.applied then (st, some doubleApplyMsg, []) else applyRun t st

mutual

/-- The spec's words for the merge result on non-conflicting inputs
(§8 / §4.2): "a manual union computed key-by-key (recursively)" — keys
absent in the target inserted, equal values left alone, nested mappings
merged recursively.  Stated independently of `mergeDicts` so the two can be
compared.  (The final catch-all arm is unreachable for non-conflicting
inputs, see `noConflict`.) -/
def specUnion (d1 : Dict) : Dict → Dict
  | [] => d1
  | (k, v2) :: rest => specUnion (specUnionOne d1 k v2) rest

/-- One key of the spec's manual key-by-key union.  (The non-dict arms are
unreachable for non-conflicting inputs and leave the target alone.) -/
def specUnionOne (d1 : Dict) (k : String) (v2 : Value) : Dict :=
  match dget d1 k with
  | none => dset d1 k v2
  | some v1 =>
    if v1 = v2 then d1
    else
      match v2 with
      | .vDict b =>
        match v1 with
        | .vDict a => dset d1 k (.vDict (specUnion a b))
        | _ => d1
      | _ => d1

end

mutual

/-- The spec's notion of two mappings being non-conflicting (§4.2): at every
key of the source present in the target, the values are equal or are both
mappings that are recursively non-conflicting.  (Set-union pairs count as
conflicting here; they are covered by the separate set-union rule.)  Later
source keys are checked against the target as already united with the
earlier ones, mirroring the in-place merge. -/
def noConflict (d1 : Dict) : Dict → Bool
  | [] => true
  | (k, v2) :: rest => noConflictOne d1 k v2 && noConflict (specUnionOne d1 k v2) rest

/-- Non-conflict of one source entry against the target. -/
def noConflictOne (d1 : Dict) (k : String) (v2 : Value) : Bool :=
  match dget d1 k with
  | none => true
  | some v1 =>
    if v1 = v2 then true
    else
      match v2 with
      | .vDict b =>
        match v1 with
        | .vDict a => noConflict a b
        | _ => false
      | _ => false

end

/-- Lines 177-179 for one field, in isolation: initialize the field to `{}`
when absent (used to factor the default-section behavior of `mergeField`). -/
def ensureF (tm : Dict) (f : String) : Dict :=
  if dmem tm f then tm else dset tm f (.vDict [])

/-- The field `f` is present in `d` with a falsy value (the deletion test of
the cleanup pass, line 184). -/
def isFalsyAt (d : Dict) (f : String) : Bool :=
  match dget d f with
  | some v => falsy v
  | none => false

/-- The transform's hooks leave the applied flag alone (they only mutate the
template), as any ordinary `update_<name>` hook does. -/
def hooksPreserveApplied (t : TransformSpec) : Prop :=
  ∀ n f, t.hooks n = some f → ∀ s : TState, (f s).applied = s.applied

/-- An `update_at_end` hook that records the applied flag it observes into
the template under the key `SeenApplied`. -/
def obsAtEnd : TState → TState :=
  fun st => { st with template := dset st.template "SeenApplied" (.vBool st.applied) }

/-- A transform whose only extension point is the `update_at_end` hook
`obsAtEnd`. -/
def tObs : TransformSpec :=
  { hooks := fun n => if n = "at_end" then some obsAtEnd else none }

/-- A transform defining hooks at both `update_after_process_resource` and
`update_at_end` (each the identity), to witness the trace order of the
pipeline's final steps. -/
def tTwoHooks : TransformSpec :=
  { hooks := fun n =>
      if n = "after_process_resource" ∨ n = "at_end" then some id else none }

/-- A transform whose `Metadata` section conflicts with a template carrying
`Metadata: {a: 1}` (the section returns `{a: 2}`), so `_apply` raises a
merge conflict. -/
def conflictT : TransformSpec := { metadataS := [("a", .vInt 2)] }

/-- The trace events of the pipeline's final steps, in the order the code
executes them: the `after_process_resource` hook, the `at_end` hook (both
inside `_apply`), then the `self.applied = True` assignment of `apply`. -/
def lastEvents : List Event :=
  [.hook "after_process_resource", .hook "at_end", .setApplied]

/-! ## Basic lemmas about the dict operations -/

theorem dget_dset (d : Dict) (k k2 : String) (v : Value) :
    dget (dset d k v) k2 = if k2 = k then some v else dget d k2 := by
  induction d with
  | nil =>
    simp only [dset, dget]
    split_ifs <;> simp_all
  | cons p rest ih =>
    obtain ⟨k1, v1⟩ := p
    simp only [dset, dget]
    split_ifs <;> simp_all [dget]

theorem dget_ddel (d : Dict) (k k2 : String) :
    dget (ddel d k) k2 = if k2 = k then none else dget d k2 := by
  induction d with
  | nil => simp [ddel, dget]
  | cons p rest ih =>
    obtain ⟨k1, v1⟩ := p
    simp only [ddel, dget]
    split_ifs <;> simp_all [dget]

theorem dset_eq_self (d : Dict) (k : String) (v : Value)
    (h : dget d k = some v) : dset d k v = d := by
  induction d with
  | nil => simp [dget] at h
  | cons p rest ih =>
    obtain ⟨k1, v1⟩ := p
    by_cases h1 : k1 = k
    · subst h1
      simp [dget] at h
      simp [dset, h]
    · simp [dget, h1] at h
      simp [dset, h1, ih h]

theorem mem_setUnion (s1 s2 : List Value) (x : Value) :
    x ∈ setUnion s1 s2 ↔ x ∈ s1 ∨ x ∈ s2 := by
  simp only [setUnion, List.mem_append, List.mem_dedup, List.mem_filter,
    decide_eq_true_eq]
  constructor
  · rintro (h | ⟨h, _⟩)
    · exact Or.inl h
    · exact Or.inr h
  · rintro (h | h)
    · exact Or.inl h
    · by_cases h1 : x ∈ s1
      · exact Or.inl h1
      · exact Or.inr ⟨h, h1⟩

theorem setUnion_self (s : List Value) : setUnion s s = s := by
  have h : s.filter (fun x => decide (x ∉ s)) = [] := by
    rw [List.filter_eq_nil_iff]
    intro a ha
    simp [ha]
  simp [setUnion, h]

theorem nodup_setUnion (s1 s2 : List Value) (h : s1.Nodup) :
    (setUnion s1 s2).Nodup := by
  rw [setUnion, List.nodup_append]
  refine ⟨h, (s2.filter _).nodup_dedup, ?_⟩
  intro x hx1 hx2
  rw [List.mem_dedup, List.mem_filter, decide_eq_true_eq] at hx2
  exact hx2.2 hx1

/-! ## C2: merge-conflict error and its path -/

/-- C2 (code bug): `merge({"a": 1}, {"a": 2})` does fail with a merge
conflict naming the two value kinds, but the path in the message is the
*parent* path — empty here, so the conflicting key `"a"` is never named.
The code joins `path` instead of `path + [key]` into the message (line 320),
leaving the message dangling at `"... at "`.  This theorem evaluates the
code at the failing input. -/
theorem c2_conflict_path_evaluation :
    mergeDicts [("a", .vInt 1)] [("a", .vInt 2)] [] =
      (some "Cannot merge int with int at ", [("a", .vInt 1)]) ∧
    mergeErrMsg (.vInt 1) (.vInt 2) [] = "Cannot merge int with int at " := by
  constructor <;> rfl

/-! ## C4: the resource filter/map pass -/

/-- C4 (confirmed): with `Resources = {R1: {Type: X}, R2: {Type: Y}}`, a
spec matching only `"X"`, and a processor that empties `R1` and returns
`{R3: {Type: Z}}`, `map` yields `{R2: {Type: Y}, R3: {Type: Z}}`: the
emptied matching resource is deleted after the pass, the non-matching one is
untouched, and the accumulated additions are deep-merged in afterwards. -/
theorem c4_resource_map_pass :
    mapResources
        [("R1", .vDict [("Type", .vStr "X")]), ("R2", .vDict [("Type", .vStr "Y")])]
        (fun _ _ => ([], some [("R3", .vDict [("Type", .vStr "Z")])]))
        (.strSpec "X") =
      (none, [("R2", .vDict [("Type", .vStr "Y")]),
              ("R3", .vDict [("Type", .vStr "Z")])]) := rfl

/-! ## C6: set-union merging -/

/-- C6 (confirmed): merging a set-like source value, or an ordered sequence,
into a set-like target value at the same key yields the deduplicated set
union replacing the target value, the same result for both source forms.
(`setUnion` has exactly the members of `S1 ∪ S2` and no duplicates when the
target set has none, as a real Python set does not.) -/
theorem c6_set_union (k : String) (s1 s2 : List Value) (path : List String) :
    mergeDicts [(k, .vSet s1)] [(k, .vSet s2)] path =
      (none, [(k, .vSet (setUnion s1 s2))]) ∧
    mergeDicts [(k, .vSet s1)] [(k, .vList s2)] path =
      (none, [(k, .vSet (setUnion s1 s2))]) ∧
    (∀ x, x ∈ setUnion s1 s2 ↔ x ∈ s1 ∨ x ∈ s2) ∧
    (s1.Nodup → (setUnion s1 s2).Nodup) := by
  refine ⟨?_, ?_, mem_setUnion s1 s2, nodup_setUnion s1 s2⟩
  · by_cases h : s1 = s2
    · subst h
      simp [mergeDicts, mergeOne, dget, dset, setUnion_self]
    · simp [mergeDicts, mergeOne, dget, dset, h]
  · simp [mergeDicts, mergeOne, dget, dset]

/-- Closed witness for `c6_set_union` at concrete sets. -/
theorem c6_set_union_witness :
    mergeDicts [("k", .vSet [.vInt 1, .vInt 2])] [("k", .vList [.vInt 2, .vInt 3])] [] =
      (none, [("k", .vSet (setUnion [.vInt 1, .vInt 2] [.vInt 2, .vInt 3]))]) ∧
    ([Value.vInt 1, .vInt 2] : List Value).Nodup ∧
    (setUnion [.vInt 1, .vInt 2] [.vInt 2, .vInt 3]).Nodup :=
  ⟨(c6_set_union "k" [.vInt 1, .vInt 2] [.vInt 2, .vInt 3] []).2.1,
   by decide,
   (c6_set_union "k" [.vInt 1, .vInt 2] [.vInt 2, .vInt 3] []).2.2.2 (by decide)⟩

/-! ## C7: resolving the Transform section -/

/-- C7 (counterexample): the claim quantifies over every document, but when
the document already carries `Transform` as a scalar string and the
section-provider returns a non-empty value, the code calls `.append` on
that string and raises an `AttributeError` instead of ensuring a sequence
and appending. -/
theorem c7_counterexample :
    transformStep { transformS := .vStr "MyMacro" } [("Transform", .vStr "Old")] =
      (some "AttributeError: no append or extend", [("Transform", .vStr "Old")]) := rfl

/-- C7 (amended): for every document whose `Transform` field is absent or an
ordered sequence, and every non-empty value returned by the Transform
section-provider that is a single string or a sequence, step 5 ensures the
document has a `Transform` field (initialized to an empty sequence when
absent) and appends the value — one element for a string, all elements in
order otherwise — leaving every other key untouched. -/
theorem c7_amended (t : TransformSpec) (tmpl : Dict) (l : List Value)
    (hT : dget tmpl "Transform" = some (.vList l) ∨
          (dget tmpl "Transform" = none ∧ l = [])) :
    (∀ s : String, t.transformS = .vStr s → s ≠ "" →
        (transformStep t tmpl).1 = none ∧
        dget (transformStep t tmpl).2 "Transform" = some (.vList (l ++ [.vStr s])) ∧
        ∀ k2, k2 ≠ "Transform" → dget (transformStep t tmpl).2 k2 = dget tmpl k2) ∧
    (∀ xs : List Value, t.transformS = .vList xs → xs ≠ [] →
        (transformStep t tmpl).1 = none ∧
        dget (transformStep t tmpl).2 "Transform" = some (.vList (l ++ xs)) ∧
        ∀ k2, k2 ≠ "Transform" → dget (transformStep t tmpl).2 k2 = dget tmpl k2) := by
  constructor
  · intro s hs hne
    have hf : falsy (.vStr s) = false := by
      simp only [falsy]
      exact decide_eq_false hne
    rcases hT with hT | ⟨hT, hl⟩
    · have hm : dmem tmpl "Transform" = true := by simp [dmem, hT]
      have heq : transformStep t tmpl =
          (none, dset tmpl "Transform" (.vList (l ++ [.vStr s]))) := by
        simp [transformStep, hs, hf, hm, hT]
      rw [heq]
      refine ⟨rfl, by simp [dget_dset], ?_⟩
      intro k2 hk2
      simp [dget_dset, hk2]
    · subst hl
      have hm : dmem tmpl "Transform" = false := by simp [dmem, hT]
      have heq : transformStep t tmpl =
          (none, dset (dset tmpl "Transform" (.vList []))
                   "Transform" (.vList [.vStr s])) := by
        simp [transformStep, hs, hf, hm, dget_dset]
      rw [heq]
      refine ⟨rfl, by simp [dget_dset], ?_⟩
      intro k2 hk2
      simp [dget_dset, hk2]
  · intro xs hxs hne
    have hf : falsy (.vList xs) = false := by
      cases xs with
      | nil => exact absurd rfl hne
      | cons a as => rfl
    rcases hT with hT | ⟨hT, hl⟩
    · have hm : dmem tmpl "Transform" = true := by simp [dmem, hT]
      have heq : transformStep t tmpl =
          (none, dset tmpl "Transform" (.vList (l ++ xs))) := by
        simp [transformStep, hxs, hf, hm, hT]
      rw [heq]
      refine ⟨rfl, by simp [dget_dset], ?_⟩
      intro k2 hk2
      simp [dget_dset, hk2]
    · subst hl
      have hm : dmem tmpl "Transform" = false := by simp [dmem, hT]
      have heq : transformStep t tmpl =
          (none, dset (dset tmpl "Transform" (.vList [])) "Transform" (.vList xs)) := by
        simp [transformStep, hxs, hf, hm, dget_dset]
      rw [heq]
      refine ⟨rfl, by simp [dget_dset], ?_⟩
      intro k2 hk2
      simp [dget_dset, hk2]

/-- Closed witness for `c7_amended`: appending the string `"M"` to a
document with `Transform: [T0]`. -/
theorem c7_amended_witness :
    (dget [("Transform", .vList [.vStr "T0"])] "Transform" =
        some (.vList [.vStr "T0"]) ∨
      (dget [("Transform", .vList [.vStr "T0"])] "Transform" = none ∧
        ([Value.vStr "T0"] : List Value) = [])) ∧
    dget (transformStep { transformS := .vStr "M" }
        [("Transform", .vList [.vStr "T0"])]).2 "Transform" =
      some (.vList [.vStr "T0", .vStr "M"]) :=
  ⟨Or.inl rfl,
   ((c7_amended { transformS := .vStr "M" } [("Transform", .vList [.vStr "T0"])]
        [.vStr "T0"] (Or.inl rfl)).1 "M" rfl (by decide)).2.1⟩

/-! ## C3: double apply -/

theorem applyT_ok_applied (t : TransformSpec) (st st1 : TState) (ev : List Event)
    (h : applyT t st = (st1, none, ev)) : st1.applied = true := by
  rw [applyT] at h
  by_cases hb : st.applied = true
  · rw [if_pos hb] at h
    simp at h
  · rw [if_neg hb, applyRun] at h
    rcases hq : applyPipeline t st with ⟨err, st2, ev2⟩
    rw [hq] at h
    cases err with
    | none =>
      simp only [Prod.mk.injEq] at h
      rw [← h.1]
    | some e => simp at h

/-- C3 (confirmed): once `apply()` has succeeded on an instance, a second
`apply()` fails with the usage error `"Transform applied more than once"`
and leaves the state — in particular the document returned by the first
call — unchanged. -/
theorem c3_double_apply (t : TransformSpec) (st st1 : TState) (ev : List Event)
    (h : applyT t st = (st1, none, ev)) :
    applyT t st1 = (st1, some doubleApplyMsg, []) := by
  rw [applyT, if_pos (applyT_ok_applied t st st1 ev h)]

/-- Closed witness for `c3_double_apply`: the default transform applied to
the empty document, then applied again. -/
theorem c3_double_apply_witness :
    applyT defaultT ⟨[], false⟩ = (⟨[], true⟩, none, [.setApplied]) ∧
    applyT defaultT ⟨[], true⟩ = (⟨[], true⟩, some doubleApplyMsg, []) :=
  ⟨rfl, c3_double_apply defaultT ⟨[], false⟩ ⟨[], true⟩ [.setApplied] rfl⟩

/-! ## Applied-flag plumbing for C10 and C8 -/

theorem runHook_applied (t : TransformSpec) (hp : hooksPreserveApplied t) :
    ∀ (ns : List String) (st : TState),
      ((runHook t st ns).1).applied = st.applied := by
  intro ns
  induction ns with
  | nil => intro st; rfl
  | cons n rest ih =>
    intro st
    cases hh : t.hooks n with
    | some f =>
      simp only [runHook, hh]
      rw [ih (f st), hp n f hh st]
    | none =>
      simp only [runHook, hh]
      exact ih st

theorem runSubs_applied :
    ∀ (subs : List (Dict → Option String × Dict)) (st : TState),
      ((runSubs subs st).2).applied = st.applied := by
  intro subs
  induction subs with
  | nil => intro st; rfl
  | cons f rest ih =>
    intro st
    rcases hf : f st.template with ⟨err, tmpl⟩
    cases err with
    | none =>
      simp only [runSubs, hf]
      exact ih _
    | some e =>
      simp only [runSubs, hf]

theorem applyPipeline_applied (t : TransformSpec) (hp : hooksPreserveApplied t)
    (st : TState) : ((applyPipeline t st).2.1).applied = st.applied := by
  rw [applyPipeline]
  set r1 := runHook t st ["at_start", "before_subtransformers"] with hr1
  have h1 : (r1.1).applied = st.applied := by
    rw [hr1]; exact runHook_applied t hp _ st
  rcases hs : runSubs t.subs r1.1 with ⟨errS, stB⟩
  have hB : stB.applied = st.applied := by
    have h2 := runSubs_applied t.subs r1.1
    rw [hs] at h2
    rw [h2, h1]
  cases errS with
  | some e => simp only [hs]; exact hB
  | none =>
    simp only [hs]
    set r2 := runHook t stB ["after_subtransformers", "before_sections"] with hr2
    have h3 : (r2.1).applied = st.applied := by
      rw [hr2, runHook_applied t hp _ stB, hB]
    rcases ht : transformStep t (descStep t r2.1.template) with ⟨errT, tmpl1⟩
    cases errT with
    | some e => simp only [ht]; exact h3
    | none =>
      simp only [ht]
      rcases hm : mergeFieldsAll t dictFields tmpl1 with ⟨errM, tmpl2⟩
      cases errM with
      | some e => simp only [hm]; exact h3
      | none =>
        simp only [hm]
        set r3 := runHook t { r2.1 with template := cleanupStep tmpl2 }
          ["after_sections", "before_process_resource"] with hr3
        have h4 : (r3.1).applied = st.applied := by
          rw [hr3, runHook_applied t hp]; exact h3
        rcases hq : processStep t r3.1.template with ⟨errP, tmpl4⟩
        cases errP with
        | some e => simp only [hq]; exact h4
        | none =>
          simp only [hq]
          have h5 : ((runHook t { r3.1 with template := tmpl4 }
              ["after_process_resource"]).1).applied = st.applied := by
            rw [runHook_applied t hp]; exact h4
          rw [runHook_applied t hp]
          exact h5

/-! ## C10: a failed apply leaves the flag unset and can be re-run -/

/-- C10 (confirmed): for a transform whose hooks do not touch the applied
flag, if `_apply` raises during a first `apply()` on a fresh instance, the
applied flag is still false afterwards, so a second `apply()` is not
rejected as a double-apply: it takes the fresh-instance path again
(`applyRun`), re-running the pipeline on the partially-mutated document held
in the state. -/
theorem c10_failed_apply (t : TransformSpec) (st st1 : TState) (e : String)
    (ev : List Event) (hp : hooksPreserveApplied t) (h0 : st.applied = false)
    (h : applyT t st = (st1, some e, ev)) :
    st1.applied = false ∧ applyT t st1 = applyRun t st1 := by
  have hA : st1.applied = false := by
    rw [applyT, if_neg (by simp [h0]), applyRun] at h
    rcases hq : applyPipeline t st with ⟨err, st2, ev2⟩
    rw [hq] at h
    cases err with
    | none => simp at h
    | some e2 =>
      simp only [Prod.mk.injEq] at h
      obtain ⟨h1, -, -⟩ := h
      have h2 := applyPipeline_applied t hp st
      rw [hq] at h2
      rw [← h1, h2, h0]
  exact ⟨hA, by rw [applyT, if_neg (by simp [hA])]⟩

/-- Closed witness for `c10_failed_apply`: a transform whose `Metadata`
section conflicts with the document raises a merge conflict; the failed call
leaves the flag false and the next call re-runs the pipeline. -/
theorem c10_failed_apply_witness :
    applyT conflictT ⟨[("Metadata", .vDict [("a", .vInt 1)])], false⟩ =
      (⟨[("Metadata", .vDict [("a", .vInt 1)])], false⟩,
        some "Cannot merge int with int at ", []) ∧
    ((⟨[("Metadata", .vDict [("a", .vInt 1)])], false⟩ : TState).applied = false ∧
      applyT conflictT ⟨[("Metadata", .vDict [("a", .vInt 1)])], false⟩ =
        applyRun conflictT ⟨[("Metadata", .vDict [("a", .vInt 1)])], false⟩) :=
  ⟨rfl,
   c10_failed_apply conflictT ⟨[("Metadata", .vDict [("a", .vInt 1)])], false⟩
     ⟨[("Metadata", .vDict [("a", .vInt 1)])], false⟩
     "Cannot merge int with int at " [] (fun _ _ hf => nomatch hf) rfl rfl⟩

/-! ## C8: order of the pipeline's final steps -/

theorem runHook_events (t : TransformSpec) :
    ∀ (ns : List String) (st : TState),
      (runHook t st ns).2 =
        (ns.filter (fun n => (t.hooks n).isSome)).map Event.hook := by
  intro ns
  induction ns with
  | nil => intro st; rfl
  | cons n rest ih =>
    intro st
    cases hh : t.hooks n with
    | some f => simp [runHook, hh, ih]
    | none => simp [runHook, hh, ih]

theorem filter_map_hook (P : Event → Bool) (q : String → Bool) :
    ∀ ns : List String, (∀ n ∈ ns, P (.hook n) = false) →
      ((ns.filter q).map Event.hook).filter P = [] := by
  intro ns
  induction ns with
  | nil => intro _; rfl
  | cons n rest ih =>
    intro h
    have hn : P (.hook n) = false := h n (by simp)
    have hr : ∀ m ∈ rest, P (.hook m) = false :=
      fun m hm => h m (by simp [hm])
    cases hq : q n <;> simp [List.filter_cons, hq, hn, ih hr]

theorem applyPipeline_ok_filter (t : TransformSpec) (st st2 : TState)
    (pev : List Event) (h : applyPipeline t st = (none, st2, pev))
    (h1 : (t.hooks "after_process_resource").isSome = true)
    (h2 : (t.hooks "at_end").isSome = true) :
    pev.filter (fun e => decide (e ∈ lastEvents)) =
      [.hook "after_process_resource", .hook "at_end"] := by
  rw [applyPipeline] at h
  set r1 := runHook t st ["at_start", "before_subtransformers"] with hr1
  rcases hs : runSubs t.subs r1.1 with ⟨errS, stB⟩
  rw [hs] at h
  cases errS with
  | some e => simp at h
  | none =>
    simp only at h
    set r2 := runHook t stB ["after_subtransformers", "before_sections"] with hr2
    rcases ht : transformStep t (descStep t r2.1.template) with ⟨errT, tmpl1⟩
    rw [ht] at h
    cases errT with
    | some e => simp at h
    | none =>
      simp only at h
      rcases hm : mergeFieldsAll t dictFields tmpl1 with ⟨errM, tmpl2⟩
      rw [hm] at h
      cases errM with
      | some e => simp at h
      | none =>
        simp only at h
        set r3 := runHook t { r2.1 with template := cleanupStep tmpl2 }
          ["after_sections", "before_process_resource"] with hr3
        rcases hq : processStep t r3.1.template with ⟨errP, tmpl4⟩
        rw [hq] at h
        cases errP with
        | some e => simp at h
        | none =>
          simp only [Prod.mk.injEq] at h
          rw [← h.2.2]
          rw [hr1, hr2, hr3, runHook_events, runHook_events, runHook_events,
            runHook_events, runHook_events]
          have hf1 := filter_map_hook (fun e => decide (e ∈ lastEvents))
            (fun n => (t.hooks n).isSome)
            ["at_start", "before_subtransformers"] (by decide)
          have hf2 := filter_map_hook (fun e => decide (e ∈ lastEvents))
            (fun n => (t.hooks n).isSome)
            ["after_subtransformers", "before_sections"] (by decide)
          have hf3 := filter_map_hook (fun e => decide (e ∈ lastEvents))
            (fun n => (t.hooks n).isSome)
            ["after_sections", "before_process_resource"] (by decide)
          simp only [List.filter_append, hf1, hf2, hf3, List.nil_append]
          simp [List.filter_cons, h1, h2, lastEvents]

/-- C8 (counterexample): an `update_at_end` hook that records the applied
flag it observes records `False` — `_apply` runs the `at_end` hook *before*
`apply` sets `self.applied = True` — and the trace shows `setApplied` after
`hook "at_end"`, refuting the claimed order (after_process_resource, mark
applied, at_end, return). -/
theorem c8_counterexample :
    applyT tObs ⟨[], false⟩ =
      (⟨[("SeenApplied", .vBool false)], true⟩, none,
        [.hook "at_end", .setApplied]) := rfl

/-- C8 (amended): in every completing run of `apply()`, the pipeline runs
the `after_process_resource` hook, then the `at_end` hook, and only then
marks the instance as applied and returns — so the applied flag is *not*
yet set when the `at_end` hook is invoked.  Stated on the trace: restricted
to the three final events, the order is exactly hook
`after_process_resource`, hook `at_end`, `setApplied`; and the returned
state is marked applied. -/
theorem c8_amended (t : TransformSpec) (st st1 : TState) (ev : List Event)
    (h : applyT t st = (st1, none, ev))
    (h1 : (t.hooks "after_process_resource").isSome = true)
    (h2 : (t.hooks "at_end").isSome = true) :
    ev.filter (fun e => decide (e ∈ lastEvents)) = lastEvents ∧
    st1.applied = true := by
  refine ⟨?_, applyT_ok_applied t st st1 ev h⟩
  rw [applyT] at h
  by_cases hb : st.applied = true
  · rw [if_pos hb] at h
    simp at h
  · rw [if_neg hb, applyRun] at h
    rcases hq : applyPipeline t st with ⟨err, st2, pev⟩
    rw [hq] at h
    cases err with
    | some e => simp at h
    | none =>
      simp only [Prod.mk.injEq] at h
      obtain ⟨-, -, hev⟩ := h
      rw [← hev, List.filter_append,
        applyPipeline_ok_filter t st st2 pev hq h1 h2]
      simp [lastEvents]

/-- Closed witness for `c8_amended`: a transform with identity hooks at
`after_process_resource` and `at_end`, applied to the empty document. -/
theorem c8_amended_witness :
    applyT tTwoHooks ⟨[], false⟩ =
      (⟨[], true⟩, none,
        [.hook "after_process_resource", .hook "at_end", .setApplied]) ∧
    (tTwoHooks.hooks "after_process_resource").isSome = true ∧
    (tTwoHooks.hooks "at_end").isSome = true ∧
    (([Event.hook "after_process_resource", .hook "at_end",
        .setApplied] : List Event).filter (fun e => decide (e ∈ lastEvents)) =
      lastEvents ∧ (⟨[], true⟩ : TState).applied = true) :=
  ⟨rfl, rfl, rfl,
   c8_amended tTwoHooks ⟨[], false⟩ ⟨[], true⟩ _ rfl rfl rfl⟩

/-! ## C9: resource-type matching -/

theorem rtAny_ok (ty : Value) :
    ∀ l : List RTypeSpec, (∀ s ∈ l, ∃ b, rtMatches ty s = .ok b) →
      (rtAny ty l = .ok true ↔ ∃ s ∈ l, rtMatches ty s = .ok true) := by
  intro l
  induction l with
  | nil => intro _; simp [rtAny]
  | cons s rest ih =>
    intro h
    obtain ⟨b, hb⟩ := h s (by simp)
    have hr := ih (fun m hm => h m (by simp [hm]))
    cases b with
    | true => simp [rtAny, hb]
    | false => simp [rtAny, hb, hr]

/-- C9 (confirmed): for every resource-type string, a `None` spec matches;
a string spec matches exactly on equality; a pattern spec matches by
substring search; a predicate spec matches when it returns true; a
collection spec matches when any of its elements matches (logical OR,
recursively; stated under the hypothesis that the elements evaluate without
raising, since evaluation short-circuits); and an unrecognized spec raises
a `TypeError` instead of silently returning false. -/
theorem c9_resource_type_matching (ty : String) :
    rtMatches (.vStr ty) .noSpec = .ok true ∧
    (∀ s, rtMatches (.vStr ty) (.strSpec s) = .ok (decide (ty = s))) ∧
    (∀ p, rtMatches (.vStr ty) (.patternSpec p) = .ok true ↔
        p.toList <:+: ty.toList) ∧
    (∀ f, rtMatches (.vStr ty) (.predSpec f) = .ok (f (.vStr ty))) ∧
    (∀ l, (∀ s ∈ l, ∃ b, rtMatches (.vStr ty) s = .ok b) →
        (rtMatches (.vStr ty) (.anyOf l) = .ok true ↔
          ∃ s ∈ l, rtMatches (.vStr ty) s = .ok true)) ∧
    rtMatches (.vStr ty) .other = .error "Unknown resource_type_spec" := by
  refine ⟨rfl, ?_, ?_, fun f => rfl, ?_, rfl⟩
  · intro s
    simp only [rtMatches]
    congr 1
    exact decide_eq_decide.mpr (by simp)
  · intro p
    simp [rtMatches]
  · intro l h
    simpa only [rtMatches] using rtAny_ok (.vStr ty) l h

/-- Closed witness for `c9_resource_type_matching`: a two-element collection
spec whose second element matches the subject type. -/
theorem c9_resource_type_matching_witness :
    (∀ s ∈ [RTypeSpec.strSpec "AWS::A", RTypeSpec.strSpec "AWS::B"],
        ∃ b, rtMatches (.vStr "AWS::B") s = .ok b) ∧
    (rtMatches (.vStr "AWS::B")
        (.anyOf [.strSpec "AWS::A", .strSpec "AWS::B"]) = .ok true ↔
      ∃ s ∈ [RTypeSpec.strSpec "AWS::A", RTypeSpec.strSpec "AWS::B"],
        rtMatches (.vStr "AWS::B") s = .ok true) := by
  have hyp : ∀ s ∈ [RTypeSpec.strSpec "AWS::A", RTypeSpec.strSpec "AWS::B"],
      ∃ b, rtMatches (.vStr "AWS::B") s = .ok b := by
    intro s hs
    simp only [List.mem_cons, List.mem_singleton] at hs
    rcases hs with hs | hs | hs
    · subst hs; exact ⟨false, rfl⟩
    · subst hs; exact ⟨true, rfl⟩
    · cases hs
  exact ⟨hyp, (c9_resource_type_matching "AWS::B").2.2.2.2.1 _ hyp⟩

/-! ## C5: merging non-conflicting mappings is the recursive union -/

mutual

theorem mergeDicts_noconf : ∀ (d1 d2 : Dict) (path : List String),
    noConflict d1 d2 = true → mergeDicts d1 d2 path = (none, specUnion d1 d2)
  | d1, [], path => fun _ => by simp [mergeDicts, specUnion]
  | d1, (k, v2) :: rest, path => fun h => by
      simp only [noConflict, Bool.and_eq_true] at h
      have hone := mergeOne_noconf d1 k v2 path h.1
      simp only [mergeDicts, specUnion, hone]
      exact mergeDicts_noconf (specUnionOne d1 k v2) rest path h.2

theorem mergeOne_noconf : ∀ (d1 : Dict) (k : String) (v2 : Value)
    (path : List String), noConflictOne d1 k v2 = true →
    mergeOne d1 k v2 path = (none, specUnionOne d1 k v2)
  | d1, k, v2, path => fun h => by
      rw [noConflictOne] at h
      rw [mergeOne, specUnionOne]
      cases hg : dget d1 k with
      | none => rfl
      | some v1 =>
        rw [hg] at h
        by_cases he : v1 = v2
        · simp [he]
        · simp only [if_neg he] at h ⊢
          cases v2 with
          | vDict b =>
            cases v1 with
            | vDict a =>
              simp only at h
              have hrec := mergeDicts_noconf a b (path ++ [k]) h
              simp [hrec]
            | vNull => simp at h
            | vBool x => simp at h
            | vInt x => simp at h
            | vStr x => simp at h
            | vList x => simp at h
            | vSet x => simp at h
          | vNull => simp at h
          | vBool x => simp at h
          | vInt x => simp at h
          | vStr x => simp at h
          | vList x => simp at h
          | vSet x => simp at h

end

/-- C5 (confirmed): for all non-conflicting mappings `A` and `B` (at every
common key the values are equal or both mappings, recursively), `merge`
succeeds and equals the recursive key-by-key union — keys absent in `A`
inserted, equal values left alone, nested mappings merged recursively — and
`merge(A, {})` returns `A` unchanged. -/
theorem c5_merge_union (A B : Dict) (path : List String)
    (h : noConflict A B = true) :
    mergeDicts A B path = (none, specUnion A B) ∧
    mergeDicts A [] path = (none, A) :=
  ⟨mergeDicts_noconf A B path h, rfl⟩

/-- Closed witness for `c5_merge_union` at concrete nested mappings. -/
theorem c5_merge_union_witness :
    noConflict [("a", .vInt 1), ("m", .vDict [("x", .vInt 1)])]
        [("b", .vInt 2), ("m", .vDict [("x", .vInt 1), ("y", .vInt 3)])] = true ∧
    mergeDicts [("a", .vInt 1), ("m", .vDict [("x", .vInt 1)])]
        [("b", .vInt 2), ("m", .vDict [("x", .vInt 1), ("y", .vInt 3)])] [] =
      (none, specUnion [("a", .vInt 1), ("m", .vDict [("x", .vInt 1)])]
        [("b", .vInt 2), ("m", .vDict [("x", .vInt 1), ("y", .vInt 3)])]) :=
  ⟨by decide,
   (c5_merge_union [("a", .vInt 1), ("m", .vDict [("x", .vInt 1)])]
     [("b", .vInt 2), ("m", .vDict [("x", .vInt 1), ("y", .vInt 3)])] []
     (by decide)).1⟩

/-! ## C1: the default pipeline on an arbitrary document -/

theorem mergeField_empty (t : TransformSpec) (f : String) (tmpl : Dict)
    (hf : sectionOf t f = []) :
    mergeField t f tmpl = (none, ensureF tmpl f) := by
  simp only [mergeField, ensureF, hf]
  cases hg : dget (if dmem tmpl f = true then tmpl else dset tmpl f (.vDict [])) f with
  | none => rfl
  | some v =>
    cases v with
    | vDict d1 => simp [mergeDicts, dset_eq_self _ _ _ hg]
    | vNull => rfl
    | vBool b => rfl
    | vInt n => rfl
    | vStr s => rfl
    | vList l => rfl
    | vSet l => rfl

theorem mergeFieldsAll_empty (t : TransformSpec) :
    ∀ (fs : List String) (tmpl : Dict), (∀ f ∈ fs, sectionOf t f = []) →
      mergeFieldsAll t fs tmpl = (none, fs.foldl ensureF tmpl) := by
  intro fs
  induction fs with
  | nil => intro tmpl _; rfl
  | cons f rest ih =>
    intro tmpl h
    simp only [mergeFieldsAll, mergeField_empty t f tmpl (h f (by simp)),
      List.foldl_cons]
    exact ih (ensureF tmpl f) (fun g hg => h g (by simp [hg]))

theorem dget_ensureF (D : Dict) (f k : String) :
    dget (ensureF D f) k =
      if k = f ∧ dget D f = none then some (.vDict []) else dget D k := by
  have hiff : dmem D f = true ↔ dget D f ≠ none := by
    rw [dmem, Option.isSome_iff_ne_none]
  by_cases hm : dmem D f = true
  · rw [ensureF, if_pos hm, if_neg (fun hc => (hiff.mp hm) hc.2)]
  · rw [ensureF, if_neg hm, dget_dset]
    have hnone : dget D f = none := by
      by_contra hc
      exact hm (hiff.mpr hc)
    by_cases hk : k = f
    · subst hk; simp [hnone]
    · simp [hk, hnone]

theorem dget_ensure_foldl :
    ∀ (fs : List String) (D : Dict) (k : String),
      dget (fs.foldl ensureF D) k =
        if k ∈ fs ∧ dget D k = none then some (.vDict []) else dget D k := by
  intro fs
  induction fs with
  | nil => intro D k; simp
  | cons f rest ih =>
    intro D k
    rw [List.foldl_cons, ih, dget_ensureF]
    by_cases hk : k = f
    · subst hk
      by_cases hn : dget D k = none
      · simp [hn]
      · simp [hn]
    · by_cases hr : k ∈ rest <;> by_cases hn : dget D k = none <;>
        simp [hk, hr, hn]

theorem dget_clean1 (D : Dict) (f k : String) :
    dget (clean1 D f) k =
      if k = f ∧ isFalsyAt D f = true then none else dget D k := by
  rw [clean1, isFalsyAt]
  cases hg : dget D f with
  | none => simp
  | some v =>
    cases hv : falsy v with
    | true =>
      simp only [hv, if_true]
      rw [dget_ddel]
      by_cases hk : k = f <;> simp [hk]
    | false => simp [hv]

theorem dget_clean_foldl :
    ∀ (fs : List String) (D : Dict) (k : String),
      dget (fs.foldl clean1 D) k =
        if k ∈ fs ∧ isFalsyAt D k = true then none else dget D k := by
  intro fs
  induction fs with
  | nil => intro D k; simp
  | cons f rest ih =>
    intro D k
    have hIF : isFalsyAt (clean1 D f) k =
        if k = f ∧ isFalsyAt D f = true then false else isFalsyAt D k := by
      rw [isFalsyAt, dget_clean1]
      by_cases hc : k = f ∧ isFalsyAt D f = true
      · rw [if_pos hc, if_pos hc]
      · rw [if_neg hc, if_neg hc, isFalsyAt]
    rw [List.foldl_cons, ih, hIF, dget_clean1]
    by_cases hk : k = f
    · subst hk
      by_cases hf : isFalsyAt D k = true
      · simp [hf]
      · simp [hf]
    · by_cases hr : k ∈ rest <;> by_cases hf : isFalsyAt D k = true <;>
        simp [hk, hr, hf]

theorem applyT_default (D : Dict) :
    applyT defaultT ⟨D, false⟩ =
      (⟨cleanupStep (dictFields.foldl ensureF D), true⟩, none, [.setApplied]) := by
  have hsec : ∀ f ∈ dictFields, sectionOf defaultT f = [] := by decide
  have hm := mergeFieldsAll_empty defaultT dictFields D hsec
  simp only [defaultT] at hm
  simp [applyT, applyRun, applyPipeline, runHook, runSubs, descStep,
    transformStep, processStep, defaultT, falsy, hm]

/-- C1 (counterexample): applying a transform with every section at its
default to the empty document yields the empty document: none of the six
dict-fields is present afterwards — in particular `Resources` is *not*
retained — because the cleanup pass removes every empty dict-field and the
resource-processing step (which would index `Resources`) is skipped when no
`process_resource` is defined.  This refutes the claim that all six
dict-fields are present, `Resources` included, in the returned document. -/
theorem c1_counterexample :
    (applyT defaultT ⟨[], false⟩).2.1 = none ∧
    ¬ dmem ((applyT defaultT ⟨[], false⟩).1).template "Resources" = true := by
  decide

/-- C1 (amended): for every document `D`, a transform with no section
methods overridden and no `process_resource` succeeds and returns `D` with
every *falsy-valued* field among the six dict-fields, `Description` and
`Transform` removed, every other key untouched, and no key added — so an
empty `Resources` is removed rather than retained, and no spurious
`Description`/`Transform` keys appear. -/
theorem c1_amended (D : Dict) (k : String) :
    (applyT defaultT ⟨D, false⟩).2.1 = none ∧
    dget ((applyT defaultT ⟨D, false⟩).1).template k =
      (if k ∈ allFields ∧ isFalsyAt D k = true then none else dget D k) := by
  rw [applyT_default D]
  refine ⟨rfl, ?_⟩
  rw [cleanupStep, dget_clean_foldl allFields (dictFields.foldl ensureF D) k,
    dget_ensure_foldl]
  have hIF : isFalsyAt (dictFields.foldl ensureF D) k =
      if k ∈ dictFields ∧ dget D k = none then true else isFalsyAt D k := by
    rw [isFalsyAt, dget_ensure_foldl]
    by_cases hc : k ∈ dictFields ∧ dget D k = none
    · rw [if_pos hc, if_pos hc]; rfl
    · rw [if_neg hc, if_neg hc, isFalsyAt]
  rw [hIF]
  by_cases hA : k ∈ dictFields
  · by_cases hB : dget D k = none
    · have hC : k ∈ allFields := by simp [allFields, hA]
      have hF : isFalsyAt D k = false := by rw [isFalsyAt, hB]
      simp [hA, hB, hC, hF]
    · simp [hA, hB]
  · simp [hA]

end CfnTransform
